import Mathlib

/-!
Verification of the Particle Field Simulator of `src/js/main.js`
(class `ParticleSystem`), shallowly embedded in Lean 4.

JavaScript numbers are modelled as exact rationals (`ℚ`).  `Math.sqrt`
is not rational-valued, so it is modelled as an abstract function
parameter `sq : ℚ → ℚ`; theorems whose truth depends on `sq` returning
a genuine square root hypothesise `IsSqrtAt sq s` (`sq s ≥ 0` and
`sq s * sq s = s`) at the points where the code calls it.  The mouse is
`Option (ℚ × ℚ)` (`none` models `mouse.x === null`/`mouse.y === null`).
-/

namespace Bumblebee

/-- Ambient particle record, as pushed by `ParticleSystem.createParticles`:
fields `x, y, vx, vy, size, color, opacity, pulse`. -/
structure Particle where
  x : ℚ
  y : ℚ
  vx : ℚ
  vy : ℚ
  size : ℚ
  color : String
  opacity : ℚ
  pulse : ℚ
deriving DecidableEq, Repr

/-- One per-particle body of `ParticleSystem.updateParticles`
(main.js lines 4824-4864), transliterated statement by statement:
position advance, opacity pulse with sign flip, the two sequential
wrap `if`s per axis, the mouse-interaction branch (attraction force,
per-component clamp to `[-2, 2]`), and the unconditional friction
`vx *= 0.99; vy *= 0.99`. -/
def stepParticle (W H : ℚ) (mouse : Option (ℚ × ℚ)) (sq : ℚ → ℚ)
    (p : Particle) : Particle :=
  let x0 := p.x + p.vx
  let y0 := p.y + p.vy
  let opacity := p.opacity + p.pulse
  let pulse := if opacity > 0.8 ∨ opacity < 0.2 then p.pulse * (-1) else p.pulse
  let x1 := if x0 < 0 then W else x0
  let x2 := if x1 > W then 0 else x1
  let y1 := if y0 < 0 then H else y0
  let y2 := if y1 > H then 0 else y1
  match mouse with
  | none =>
      { p with x := x2, y := y2, opacity := opacity, pulse := pulse,
               vx := p.vx * 0.99, vy := p.vy * 0.99 }
  | some (mx, my) =>
      let dx := mx - x2
      let dy := my - y2
      let distance := sq (dx * dx + dy * dy)
      if distance < 100 then
        let force := (100 - distance) / 100
        let vx1 := p.vx + dx * force * 0.001
        let vy1 := p.vy + dy * force * 0.001
        let vx2 := max (-2) (min 2 vx1)
        let vy2 := max (-2) (min 2 vy1)
        { p with x := x2, y := y2, opacity := opacity, pulse := pulse,
                 vx := vx2 * 0.99, vy := vy2 * 0.99 }
      else
        { p with x := x2, y := y2, opacity := opacity, pulse := pulse,
                 vx := p.vx * 0.99, vy := p.vy * 0.99 }

/-- Phase (a) of the update: `particle.x += particle.vx; particle.y += particle.vy`. -/
def advancePosition (p : Particle) : Particle :=
  { p with x := p.x + p.vx, y := p.y + p.vy }

/-- Phase (b): `particle.opacity += particle.pulse` and flip the pulse sign
when the new opacity leaves `[0.2, 0.8]` (`particle.pulse *= -1`). -/
def oscillateOpacity (p : Particle) : Particle :=
  let opacity := p.opacity + p.pulse
  { p with opacity := opacity,
           pulse := if opacity > 0.8 ∨ opacity < 0.2 then p.pulse * (-1) else p.pulse }

/-- Phase (c): the per-axis wrap, two sequential `if` statements per axis. -/
def wrapPosition (W H : ℚ) (p : Particle) : Particle :=
  let x1 := if p.x < 0 then W else p.x
  let x2 := if x1 > W then 0 else x1
  let y1 := if p.y < 0 then H else p.y
  let y2 := if y1 > H then 0 else y1
  { p with x := x2, y := y2 }

/-- Phase (d): the mouse-interaction branch — when the mouse is present and
`sq (dx² + dy²) < 100`, add the attraction term
`d⋅((100 − distance)/100)⋅0.001` to each velocity component and clamp each
component to `[-2, 2]` via `Math.max(-2, Math.min(2, v))`. -/
def attractAndClamp (mouse : Option (ℚ × ℚ)) (sq : ℚ → ℚ) (p : Particle) : Particle :=
  match mouse with
  | none => p
  | some (mx, my) =>
      let dx := mx - p.x
      let dy := my - p.y
      let distance := sq (dx * dx + dy * dy)
      if distance < 100 then
        let force := (100 - distance) / 100
        let vx1 := p.vx + dx * force * 0.001
        let vy1 := p.vy + dy * force * 0.001
        { p with vx := max (-2) (min 2 vx1), vy := max (-2) (min 2 vy1) }
      else p

/-- Phase (e): unconditional friction `vx *= 0.99; vy *= 0.99`. -/
def applyFriction (p : Particle) : Particle :=
  { p with vx := p.vx * 0.99, vy := p.vy * 0.99 }

/-- The transliterated step is exactly the composition of the five phases in
source order. -/
theorem step_eq_phases (W H : ℚ) (mouse : Option (ℚ × ℚ)) (sq : ℚ → ℚ)
    (p : Particle) :
    stepParticle W H mouse sq p =
      applyFriction (attractAndClamp mouse sq
        (wrapPosition W H (oscillateOpacity (advancePosition p)))) := by
  cases mouse with
  | none => rfl
  | some m =>
      obtain ⟨mx, my⟩ := m
      simp only [stepParticle, advancePosition, oscillateOpacity, wrapPosition,
        attractAndClamp]
      rw [apply_ite applyFriction]
      split <;> rfl

/-- Iterated update steps, the mouse position possibly changing between
frames (`traj k` is the mouse state during frame `k`). -/
def stepsN (W H : ℚ) (traj : ℕ → Option (ℚ × ℚ)) (sq : ℚ → ℚ) :
    ℕ → Particle → Particle
  | 0, p => p
  | n + 1, p => stepParticle W H (traj n) sq (stepsN W H traj sq n p)

/-- The abstract square-root oracle returns a genuine square root at point
`s`: non-negative and squaring back to `s`. -/
def IsSqrtAt (sq : ℚ → ℚ) (s : ℚ) : Prop :=
  0 ≤ sq s ∧ sq s * sq s = s

instance (sq : ℚ → ℚ) (s : ℚ) : Decidable (IsSqrtAt sq s) := by
  unfold IsSqrtAt; infer_instance

/-- Squared distance from the mouse to the position of the particle at the
moment the mouse-interaction branch of the code reads it (after advance and
wrap). -/
def distSqToMouse (W H mx my : ℚ) (p : Particle) : ℚ :=
  (mx - (wrapPosition W H (oscillateOpacity (advancePosition p))).x) *
    (mx - (wrapPosition W H (oscillateOpacity (advancePosition p))).x) +
  (my - (wrapPosition W H (oscillateOpacity (advancePosition p))).y) *
    (my - (wrapPosition W H (oscillateOpacity (advancePosition p))).y)

/-! Helper lemmas about the phases. -/

theorem applyFriction_x (p : Particle) : (applyFriction p).x = p.x := rfl

theorem applyFriction_y (p : Particle) : (applyFriction p).y = p.y := rfl

theorem attractAndClamp_x (mouse : Option (ℚ × ℚ)) (sq : ℚ → ℚ) (p : Particle) :
    (attractAndClamp mouse sq p).x = p.x := by
  cases mouse with
  | none => rfl
  | some m =>
      obtain ⟨mx, my⟩ := m
      dsimp only [attractAndClamp]
      split <;> rfl

theorem attractAndClamp_y (mouse : Option (ℚ × ℚ)) (sq : ℚ → ℚ) (p : Particle) :
    (attractAndClamp mouse sq p).y = p.y := by
  cases mouse with
  | none => rfl
  | some m =>
      obtain ⟨mx, my⟩ := m
      dsimp only [attractAndClamp]
      split <;> rfl

theorem wrapPosition_mem (W H : ℚ) (hW : 0 ≤ W) (hH : 0 ≤ H) (p : Particle) :
    0 ≤ (wrapPosition W H p).x ∧ (wrapPosition W H p).x ≤ W ∧
    0 ≤ (wrapPosition W H p).y ∧ (wrapPosition W H p).y ≤ H := by
  dsimp only [wrapPosition]
  split_ifs <;> refine ⟨?_, ?_, ?_, ?_⟩ <;> linarith

theorem attractAndClamp_far (mx my : ℚ) (sq : ℚ → ℚ) (q : Particle)
    (h : ¬ sq ((mx - q.x) * (mx - q.x) + (my - q.y) * (my - q.y)) < 100) :
    attractAndClamp (some (mx, my)) sq q = q := by
  dsimp only [attractAndClamp]
  rw [if_neg h]

theorem clamp_mul_friction_abs_le (w : ℚ) : |max (-2) (min 2 w) * 0.99| ≤ 2 := by
  have h1 : (-2 : ℚ) ≤ max (-2) (min 2 w) := le_max_left _ _
  have h2 : max (-2) (min 2 w) ≤ 2 := max_le (by norm_num) (min_le_left _ _)
  rw [abs_le]
  constructor <;> nlinarith

theorem step_vel_clamped_of_near (W H mx my : ℚ) (sq : ℚ → ℚ) (p : Particle)
    (h : sq (distSqToMouse W H mx my p) < 100) :
    |(stepParticle W H (some (mx, my)) sq p).vx| ≤ 2 ∧
    |(stepParticle W H (some (mx, my)) sq p).vy| ≤ 2 := by
  simp only [distSqToMouse] at h
  rw [step_eq_phases]
  dsimp only [attractAndClamp]
  rw [if_pos h]
  exact ⟨clamp_mul_friction_abs_le _, clamp_mul_friction_abs_le _⟩

/-- Concrete particle used by witnesses: at the origin, at rest. -/
def pZero : Particle :=
  { x := 0, y := 0, vx := 0, vy := 0, size := 1, color := "#00f5ff",
    opacity := 1/2, pulse := 1/50 }

/-- Concrete particle just inside the left edge, drifting left. -/
def pLeftEdge : Particle :=
  { x := 1/10, y := 1/10, vx := -1/5, vy := 0, size := 1, color := "#00f5ff",
    opacity := 1/2, pulse := 1/50 }

/-- C4: one update step performs exactly, in source order, (a) position
advance by velocity, (b) opacity oscillation with delta sign flip on exiting
`[0.2, 0.8]`, (c) per-axis wrap, (d) the conditional mouse attraction (term
`d⋅((100 − distance)/100)⋅0.001` per component) followed by the per-component
clamp to `[-2, 2]`, and (e) the unconditional friction multiplier `0.99`:
the transliterated `updateParticles` body equals the composition of the five
phase functions. -/
theorem c4_step_phase_order (W H : ℚ) (mouse : Option (ℚ × ℚ)) (sq : ℚ → ℚ)
    (p : Particle) :
    stepParticle W H mouse sq p =
      applyFriction (attractAndClamp mouse sq
        (wrapPosition W H (oscillateOpacity (advancePosition p)))) :=
  step_eq_phases W H mouse sq p

/-- C2 counterexample: the claim asserts `x < viewportWidth` after every
step, but a particle at `x = 0.1` with `vx = -0.2` is wrapped to
`x = width` exactly (the code assigns `particle.x = this.canvas.width`),
so with `width = 800` the updated `x` is not `< 800`. -/
theorem c2_counterexample :
    ¬ (stepParticle 800 600 none (fun _ => 0) pLeftEdge).x < 800 := by
  norm_num [stepParticle, pLeftEdge]

/-- C2 amended: after every update step (any `n ≥ 1` steps) the position lies
in the closed box `[0, viewportWidth] × [0, viewportHeight]`; the coordinate
can land exactly on `viewportWidth` (resp. `viewportHeight`) because wrapping
a negative coordinate sets it to exactly the width (resp. height). -/
theorem c2_wrap_closed_box (W H : ℚ) (traj : ℕ → Option (ℚ × ℚ)) (sq : ℚ → ℚ)
    (p : Particle) (n : ℕ) (hW : 0 ≤ W) (hH : 0 ≤ H) (hn : 1 ≤ n) :
    0 ≤ (stepsN W H traj sq n p).x ∧ (stepsN W H traj sq n p).x ≤ W ∧
    0 ≤ (stepsN W H traj sq n p).y ∧ (stepsN W H traj sq n p).y ≤ H := by
  obtain ⟨m, rfl⟩ : ∃ m, n = m + 1 := ⟨n - 1, by omega⟩
  simp only [stepsN]
  rw [step_eq_phases, applyFriction_x, applyFriction_y, attractAndClamp_x,
    attractAndClamp_y]
  exact wrapPosition_mem W H hW hH _

/-- Witness for `c2_wrap_closed_box` at a concrete input. -/
theorem c2_wrap_closed_box_witness :
    0 ≤ (stepsN 800 600 (fun _ => none) (fun _ => 0) 1 pLeftEdge).x ∧
    (stepsN 800 600 (fun _ => none) (fun _ => 0) 1 pLeftEdge).x ≤ 800 ∧
    0 ≤ (stepsN 800 600 (fun _ => none) (fun _ => 0) 1 pLeftEdge).y ∧
    (stepsN 800 600 (fun _ => none) (fun _ => 0) 1 pLeftEdge).y ≤ 600 :=
  c2_wrap_closed_box 800 600 (fun _ => none) (fun _ => 0) pLeftEdge 1
    (by norm_num) (by norm_num) (le_refl 1)

/-- C10: in a step where the mouse is absent, or present but at squared
distance at least `10000` from the particle (so the genuine distance is at
least 100 px and the attraction branch is not taken), each velocity component
is exactly multiplied by `0.99`, hence speed does not increase. -/
theorem c10_friction_only_step (W H : ℚ) (mouse : Option (ℚ × ℚ)) (sq : ℚ → ℚ)
    (p : Particle)
    (h : mouse = none ∨ ∃ mx my, mouse = some (mx, my) ∧
        IsSqrtAt sq (distSqToMouse W H mx my p) ∧
        10000 ≤ distSqToMouse W H mx my p) :
    (stepParticle W H mouse sq p).vx = p.vx * 0.99 ∧
    (stepParticle W H mouse sq p).vy = p.vy * 0.99 ∧
    |(stepParticle W H mouse sq p).vx| ≤ |p.vx| ∧
    |(stepParticle W H mouse sq p).vy| ≤ |p.vy| := by
  have hfrict : (stepParticle W H mouse sq p).vx = p.vx * 0.99 ∧
      (stepParticle W H mouse sq p).vy = p.vy * 0.99 := by
    rw [step_eq_phases]
    rcases h with rfl | ⟨mx, my, rfl, ⟨hpos, hsq⟩, hfar⟩
    · exact ⟨rfl, rfl⟩
    · have hnot : ¬ sq (distSqToMouse W H mx my p) < 100 := by
        intro hlt
        nlinarith
      simp only [distSqToMouse] at hnot
      rw [attractAndClamp_far mx my sq _ hnot]
      exact ⟨rfl, rfl⟩
  refine ⟨hfrict.1, hfrict.2, ?_, ?_⟩
  · rw [hfrict.1, abs_mul, show |(0.99 : ℚ)| = 0.99 by norm_num]
    nlinarith [abs_nonneg p.vx]
  · rw [hfrict.2, abs_mul, show |(0.99 : ℚ)| = 0.99 by norm_num]
    nlinarith [abs_nonneg p.vy]

/-- Witness for `c10_friction_only_step`: mouse absent, concrete particle. -/
theorem c10_friction_only_step_witness :
    (stepParticle 800 600 none (fun _ => 0) pLeftEdge).vx = pLeftEdge.vx * 0.99 ∧
    (stepParticle 800 600 none (fun _ => 0) pLeftEdge).vy = pLeftEdge.vy * 0.99 ∧
    |(stepParticle 800 600 none (fun _ => 0) pLeftEdge).vx| ≤ |pLeftEdge.vx| ∧
    |(stepParticle 800 600 none (fun _ => 0) pLeftEdge).vy| ≤ |pLeftEdge.vy| :=
  c10_friction_only_step 800 600 none (fun _ => 0) pLeftEdge (Or.inl rfl)

/-- C1: if on each of `n` consecutive steps the mouse is present and within
the 100 px interaction radius of the particle (squared distance below
`10000`, square-root oracle genuine there), then after each of these steps
both velocity components are bounded by 2 in absolute value. -/
theorem c1_velocity_bound_under_attraction (W H : ℚ) (mtraj : ℕ → ℚ × ℚ)
    (sq : ℚ → ℚ) (p : Particle) (n : ℕ)
    (hnear : ∀ k, k < n →
      IsSqrtAt sq (distSqToMouse W H (mtraj k).1 (mtraj k).2
        (stepsN W H (fun i => some (mtraj i)) sq k p)) ∧
      distSqToMouse W H (mtraj k).1 (mtraj k).2
        (stepsN W H (fun i => some (mtraj i)) sq k p) < 10000) :
    ∀ k, 1 ≤ k → k ≤ n →
      |(stepsN W H (fun i => some (mtraj i)) sq k p).vx| ≤ 2 ∧
      |(stepsN W H (fun i => some (mtraj i)) sq k p).vy| ≤ 2 := by
  intro k h1 h2
  obtain ⟨m, rfl⟩ : ∃ m, k = m + 1 := ⟨k - 1, by omega⟩
  obtain ⟨⟨hpos, hsq⟩, hlt⟩ := hnear m (by omega)
  have hcond : sq (distSqToMouse W H (mtraj m).1 (mtraj m).2
      (stepsN W H (fun i => some (mtraj i)) sq m p)) < 100 := by
    by_contra hc
    push_neg at hc
    nlinarith
  simp only [stepsN]
  exact step_vel_clamped_of_near W H (mtraj m).1 (mtraj m).2 sq
    (stepsN W H (fun i => some (mtraj i)) sq m p) hcond

/-- Witness for `c1_velocity_bound_under_attraction`: mouse pinned at the
origin on top of a resting particle for one step. -/
theorem c1_velocity_bound_under_attraction_witness :
    |(stepsN 0 0 (fun _ => some ((0 : ℚ), (0 : ℚ))) (fun _ => 0) 1 pZero).vx| ≤ 2 ∧
    |(stepsN 0 0 (fun _ => some ((0 : ℚ), (0 : ℚ))) (fun _ => 0) 1 pZero).vy| ≤ 2 :=
  c1_velocity_bound_under_attraction 0 0 (fun _ => (0, 0)) (fun _ => 0) pZero 1
    (fun k hk => by
      obtain rfl : k = 0 := Nat.lt_one_iff.mp hk
      norm_num [IsSqrtAt, distSqToMouse, wrapPosition, oscillateOpacity,
        advancePosition, stepsN, pZero])
    1 (le_refl 1) (le_refl 1)

/-! Opacity oscillation (claim C3). -/

theorem applyFriction_opacity (p : Particle) : (applyFriction p).opacity = p.opacity := rfl

theorem applyFriction_pulse (p : Particle) : (applyFriction p).pulse = p.pulse := rfl

theorem attractAndClamp_opacity (mouse : Option (ℚ × ℚ)) (sq : ℚ → ℚ) (p : Particle) :
    (attractAndClamp mouse sq p).opacity = p.opacity := by
  cases mouse with
  | none => rfl
  | some m =>
      obtain ⟨mx, my⟩ := m
      dsimp only [attractAndClamp]
      split <;> rfl

theorem attractAndClamp_pulse (mouse : Option (ℚ × ℚ)) (sq : ℚ → ℚ) (p : Particle) :
    (attractAndClamp mouse sq p).pulse = p.pulse := by
  cases mouse with
  | none => rfl
  | some m =>
      obtain ⟨mx, my⟩ := m
      dsimp only [attractAndClamp]
      split <;> rfl

theorem step_opacity (W H : ℚ) (mouse : Option (ℚ × ℚ)) (sq : ℚ → ℚ) (p : Particle) :
    (stepParticle W H mouse sq p).opacity = p.opacity + p.pulse := by
  rw [step_eq_phases, applyFriction_opacity, attractAndClamp_opacity]
  exact rfl

theorem step_pulse (W H : ℚ) (mouse : Option (ℚ × ℚ)) (sq : ℚ → ℚ) (p : Particle) :
    (stepParticle W H mouse sq p).pulse =
      if p.opacity + p.pulse > 0.8 ∨ p.opacity + p.pulse < 0.2
      then p.pulse * (-1) else p.pulse := by
  rw [step_eq_phases, applyFriction_pulse, attractAndClamp_pulse]
  exact rfl

/-- The opacity/pulse invariant actually maintained by the code: either the
opacity is inside `[0.2, 0.8]`, or it has overshot a bound by at most the
pulse magnitude `m` and the pulse already points back into the band. -/
def OpacityInv (m : ℚ) (p : Particle) : Prop :=
  (p.pulse = m ∨ p.pulse = -m) ∧
  ((0.2 ≤ p.opacity ∧ p.opacity ≤ 0.8) ∨
   (0.8 < p.opacity ∧ p.opacity ≤ 0.8 + m ∧ p.pulse = -m) ∨
   (0.2 - m ≤ p.opacity ∧ p.opacity < 0.2 ∧ p.pulse = m))

instance (m : ℚ) (p : Particle) : Decidable (OpacityInv m p) := by
  unfold OpacityInv; infer_instance

theorem opacityInv_step (W H : ℚ) (mouse : Option (ℚ × ℚ)) (sq : ℚ → ℚ)
    (m : ℚ) (p : Particle) (hm : 0 < m) (hm6 : m ≤ 0.6) (h : OpacityInv m p) :
    OpacityInv m (stepParticle W H mouse sq p) := by
  obtain ⟨hpm, hband⟩ := h
  constructor
  · rw [step_pulse]
    rcases hpm with h1 | h1 <;> rw [h1] <;> split
    · right; ring
    · left; rfl
    · left; ring
    · right; rfl
  · rw [step_opacity, step_pulse]
    rcases hpm with h1 | h1 <;> rw [h1] at hband ⊢ <;> split <;> rename_i hc
    · rcases hc with hc | hc
      · rcases hband with ⟨b1, b2⟩ | ⟨b1, b2, b3⟩ | ⟨b1, b2, b3⟩
        · exact Or.inr (Or.inl ⟨hc, by linarith, by ring⟩)
        · exfalso; linarith
        · exfalso; linarith
      · rcases hband with ⟨b1, b2⟩ | ⟨b1, b2, b3⟩ | ⟨b1, b2, b3⟩ <;>
          exfalso <;> linarith
    · push_neg at hc
      exact Or.inl ⟨hc.2, hc.1⟩
    · rcases hc with hc | hc
      · rcases hband with ⟨b1, b2⟩ | ⟨b1, b2, b3⟩ | ⟨b1, b2, b3⟩ <;>
          exfalso <;> linarith
      · rcases hband with ⟨b1, b2⟩ | ⟨b1, b2, b3⟩ | ⟨b1, b2, b3⟩
        · exact Or.inr (Or.inr ⟨by linarith, hc, by ring⟩)
        · exfalso; linarith
        · exfalso; linarith
    · push_neg at hc
      exact Or.inl ⟨hc.2, hc.1⟩

/-- Concrete particle whose opacity is about to overshoot the 0.8 bound. -/
def pHighOpacity : Particle :=
  { x := 10, y := 10, vx := 0, vy := 0, size := 1, color := "#00f5ff",
    opacity := 79/100, pulse := 1/50 }

/-- C3 counterexample: a particle with opacity `0.79` and pulse `0.02`
(both inside the creation ranges) has opacity `0.81 > 0.8` right after one
update step — the code flips the pulse sign but does not clamp, so the claim
`opacity ≤ 0.8` after every step is false. -/
theorem c3_counterexample :
    ¬ (stepParticle 800 600 none (fun _ => 0) pHighOpacity).opacity ≤ 0.8 := by
  norm_num [stepParticle, pHighOpacity]

/-- C3 amended: with pulse magnitude `m` (`0 < m ≤ 0.6`), starting from a
state satisfying the flip invariant (in particular any particle whose
opacity lies in `[0.2, 0.8]`), after any number of update steps the opacity
stays within `[0.2 − m, 0.8 + m]` — it can overshoot a bound by at most one
pulse for one step — and whenever it is outside `[0.2, 0.8]` the pulse has
been sign-flipped to point back into the band (never clamped, never stuck). -/
theorem c3_opacity_band (W H : ℚ) (traj : ℕ → Option (ℚ × ℚ)) (sq : ℚ → ℚ)
    (m : ℚ) (p : Particle) (hm : 0 < m) (hm6 : m ≤ 0.6)
    (h0 : OpacityInv m p) (n : ℕ) :
    OpacityInv m (stepsN W H traj sq n p) ∧
    0.2 - m ≤ (stepsN W H traj sq n p).opacity ∧
    (stepsN W H traj sq n p).opacity ≤ 0.8 + m := by
  have hinv : ∀ k, OpacityInv m (stepsN W H traj sq k p) := by
    intro k
    induction k with
    | zero => exact h0
    | succ k ih =>
        simpa only [stepsN] using opacityInv_step W H (traj k) sq m _ hm hm6 ih
  refine ⟨hinv n, ?_, ?_⟩
  · obtain ⟨-, hband⟩ := hinv n
    rcases hband with ⟨a, b⟩ | ⟨a, b, c⟩ | ⟨a, b, c⟩ <;> linarith
  · obtain ⟨-, hband⟩ := hinv n
    rcases hband with ⟨a, b⟩ | ⟨a, b, c⟩ | ⟨a, b, c⟩ <;> linarith

/-- Witness for `c3_opacity_band` at a concrete input. -/
theorem c3_opacity_band_witness :
    OpacityInv (1/50) (stepsN 800 600 (fun _ => none) (fun _ => 0) 3 pZero) ∧
    0.2 - 1/50 ≤ (stepsN 800 600 (fun _ => none) (fun _ => 0) 3 pZero).opacity ∧
    (stepsN 800 600 (fun _ => none) (fun _ => 0) 3 pZero).opacity ≤ 0.8 + 1/50 :=
  c3_opacity_band 800 600 (fun _ => none) (fun _ => 0) (1/50) pZero
    (by norm_num) (by norm_num)
    (by norm_num [OpacityInv, pZero]) 3

/-! Connection lines (claim C5), from `ParticleSystem.drawConnections`:
for each pair `i < j`, `distance = Math.sqrt(dx*dx + dy*dy)`; a line is
drawn only under `distance < maxDistance` with `maxDistance = 120`, with
`globalAlpha = (1 - distance / maxDistance) * 0.2`. -/

/-- The `distance` value computed by `drawConnections` for a pair. -/
def particleDistance (sq : ℚ → ℚ) (p q : Particle) : ℚ :=
  sq ((p.x - q.x) * (p.x - q.x) + (p.y - q.y) * (p.y - q.y))

/-- Whether `drawConnections` draws a line for the pair: `distance < 120`. -/
def connectionDrawn (sq : ℚ → ℚ) (p q : Particle) : Bool :=
  decide (particleDistance sq p q < 120)

/-- The line opacity `(1 - distance / maxDistance) * 0.2`. -/
def connectionOpacity (sq : ℚ → ℚ) (p q : Particle) : ℚ :=
  (1 - particleDistance sq p q / 120) * 0.2

/-- Concrete particle exactly 120 px to the right of `pZero`. -/
def pConnB : Particle :=
  { x := 120, y := 0, vx := 0, vy := 0, size := 1, color := "#00f5ff",
    opacity := 1/2, pulse := 1/50 }

/-- Concrete particle at `(3, 4)`, 5 px from `pZero`. -/
def pNear : Particle :=
  { x := 3, y := 4, vx := 0, vy := 0, size := 1, color := "#00f5ff",
    opacity := 1/2, pulse := 1/50 }

/-- Oracle returning the genuine square root of `14400`. -/
def sq120 : ℚ → ℚ := fun _ => 120

/-- C5 counterexample: two particles exactly 120 px apart (squared distance
`14400`, square-root oracle genuine there) do NOT get a line drawn — the code
tests `distance < maxDistance` strictly, so the claim that a line with
computed opacity 0 is drawn at exactly 120 px is false. -/
theorem c5_counterexample :
    particleDistance sq120 pZero pConnB = 120 ∧
    IsSqrtAt sq120 ((pZero.x - pConnB.x) * (pZero.x - pConnB.x) +
      (pZero.y - pConnB.y) * (pZero.y - pConnB.y)) ∧
    connectionDrawn sq120 pZero pConnB = false := by
  refine ⟨rfl, ⟨by norm_num [sq120], by norm_num [sq120, pZero, pConnB]⟩, ?_⟩
  norm_num [connectionDrawn, particleDistance, sq120]

/-- C5 amended: a pair gets a line exactly when its Euclidean distance is
strictly below 120 px (squared distance `< 14400`); at exactly 120 px no
line is drawn, though the opacity formula evaluates to 0 there; at 0 px the
computed opacity is the fixed finite maximum `0.2`; the computed opacity
never exceeds `0.2`. -/
theorem c5_connection_threshold (p q : Particle) (sq : ℚ → ℚ)
    (hs : IsSqrtAt sq ((p.x - q.x) * (p.x - q.x) + (p.y - q.y) * (p.y - q.y))) :
    (connectionDrawn sq p q = true ↔
      (p.x - q.x) * (p.x - q.x) + (p.y - q.y) * (p.y - q.y) < 14400) ∧
    (particleDistance sq p q = 120 →
      connectionDrawn sq p q = false ∧ connectionOpacity sq p q = 0) ∧
    (particleDistance sq p q = 0 → connectionOpacity sq p q = 1/5) ∧
    connectionOpacity sq p q ≤ 1/5 := by
  obtain ⟨hpos, hsq⟩ := hs
  simp only [connectionDrawn, connectionOpacity, particleDistance,
    decide_eq_true_iff, decide_eq_false_iff_not] at *
  set s : ℚ := (p.x - q.x) * (p.x - q.x) + (p.y - q.y) * (p.y - q.y) with hsdef
  refine ⟨?_, ?_, ?_, ?_⟩
  · constructor
    · intro hlt
      have hmul := mul_self_lt_mul_self hpos hlt
      norm_num at hmul
      linarith
    · intro hlt
      by_contra hge
      push_neg at hge
      have hmul := mul_self_le_mul_self (by norm_num : (0:ℚ) ≤ 120) hge
      norm_num at hmul
      linarith
  · intro h120
    rw [h120]
    norm_num
  · intro h0
    rw [h0]
    norm_num
  · linarith

/-- Witness for `c5_connection_threshold`: particles 5 px apart (a 3-4-5
triangle), oracle returning the genuine root 5. -/
theorem c5_connection_threshold_witness :
    (connectionDrawn (fun _ => 5) pZero pNear = true ↔
      (pZero.x - pNear.x) * (pZero.x - pNear.x) +
        (pZero.y - pNear.y) * (pZero.y - pNear.y) < 14400) ∧
    (particleDistance (fun _ => 5) pZero pNear = 120 →
      connectionDrawn (fun _ => 5) pZero pNear = false ∧
      connectionOpacity (fun _ => 5) pZero pNear = 0) ∧
    (particleDistance (fun _ => 5) pZero pNear = 0 →
      connectionOpacity (fun _ => 5) pZero pNear = 1/5) ∧
    connectionOpacity (fun _ => 5) pZero pNear ≤ 1/5 :=
  c5_connection_threshold pZero pNear (fun _ => 5)
    (by norm_num [IsSqrtAt, pZero, pNear])

/-! System-level model: particle count tiers, creation, resize, the frame
loop and the visibility flag (`ParticleSystem.getParticleCount`,
`createParticles`, `setupEventListeners`, `animate`). -/

/-- The `isLowEnd` test: `navigator.hardwareConcurrency &&
navigator.hardwareConcurrency < 4` — truthy (present and nonzero) and
below 4.  `none` models an absent `hardwareConcurrency`. -/
def isLowEndHC : Option ℕ → Prop
  | none => False
  | some n => n ≠ 0 ∧ n < 4

instance (hc : Option ℕ) : Decidable (isLowEndHC hc) := by
  cases hc <;> unfold isLowEndHC <;> infer_instance

/-- Transliterates `ParticleSystem.getParticleCount`: 30 when `innerWidth < 768` (mobile)
or on low-end hardware, 50 when `innerWidth < 1024`, else 80. -/
def getParticleCount (w : ℚ) (hc : Option ℕ) : ℕ :=
  if w < 768 ∨ isLowEndHC hc then 30
  else if w < 1024 then 50
  else 80

/-- The fixed colour palette `this.colors`. -/
def colors : List String :=
  ["#00f5ff", "#bf00ff", "#39ff14", "#ff007f", "#ff8c00", "#00ffaa"]

/-- One particle as pushed by `createParticles`, with `Math.random()`
modelled by the stream `rng` consumed in source order (indices
`8i .. 8i+7` for particle `i`): `x = r*width`, `y = r*height`,
`vx, vy = (r - 0.5) * 0.5`, `size = r*3 + 1`,
`color = colors[Math.floor(r * 6)]`, `opacity = r*0.5 + 0.3`,
`pulse = r*0.02 + 0.01`. -/
def mkParticle (rng : ℕ → ℚ) (W H : ℚ) (i : ℕ) : Particle :=
  { x := rng (8*i) * W
    y := rng (8*i+1) * H
    vx := (rng (8*i+2) - 0.5) * 0.5
    vy := (rng (8*i+3) - 0.5) * 0.5
    size := rng (8*i+4) * 3 + 1
    color := colors.getD (Int.toNat ⌊rng (8*i+5) * 6⌋) ""
    opacity := rng (8*i+6) * 0.5 + 0.3
    pulse := rng (8*i+7) * 0.02 + 0.01 }

/-- Transliterates `ParticleSystem.createParticles`: reset the collection and push
`count` fresh randomized particles. -/
def createParticles (rng : ℕ → ℚ) (count : ℕ) (W H : ℚ) : List Particle :=
  (List.range count).map (mkParticle rng W H)

/-- Simulator state: canvas size, particle count, collection, mouse,
and the `pauseAnimation` flag. -/
structure SysState where
  width : ℚ
  height : ℚ
  particleCount : ℕ
  particles : List Particle
  mouse : Option (ℚ × ℚ)
  pauseAnimation : Bool
deriving DecidableEq, Repr

/-- The `resize` listener: `resizeCanvas()`, recompute `particleCount` via
`getParticleCount()`, then `createParticles()` — the old collection is
discarded wholesale. -/
def resizeEvent (hc : Option ℕ) (rng : ℕ → ℚ) (newW newH : ℚ)
    (s : SysState) : SysState :=
  { s with width := newW, height := newH,
           particleCount := getParticleCount newW hc,
           particles := createParticles rng (getParticleCount newW hc) newW newH }

/-- One `animate()` frame: `updateParticles()` then `drawParticles()` then
reschedule.  The function never reads `pauseAnimation` — exactly as in the
source, where the flag is set by the `visibilitychange` listener but never
consulted by the loop. -/
def animateFrame (sq : ℚ → ℚ) (s : SysState) : SysState :=
  { s with particles := s.particles.map (stepParticle s.width s.height s.mouse sq) }

/-- The `visibilitychange` listener: `pauseAnimation := document.hidden`. -/
def visibilityChange (hidden : Bool) (s : SysState) : SysState :=
  { s with pauseAnimation := hidden }

/-- C7: a resize discards the old collection and re-creates it with
`getParticleCount` many particles (independent of the prior state), and on
non-low-end hardware (`hardwareConcurrency = c ≥ 4`) width 500 gives 30,
width 900 gives 50 and width 1400 gives 80 particles. -/
theorem c7_resize_tier_counts (hc : Option ℕ) (rng : ℕ → ℚ) (newW newH : ℚ)
    (s t : SysState) (c : ℕ) (hc4 : 4 ≤ c) :
    (resizeEvent hc rng newW newH s).particles.length = getParticleCount newW hc ∧
    (resizeEvent hc rng newW newH s).particles =
      (resizeEvent hc rng newW newH t).particles ∧
    getParticleCount 500 (some c) = 30 ∧
    getParticleCount 900 (some c) = 50 ∧
    getParticleCount 1400 (some c) = 80 := by
  have hnotLow : ¬ isLowEndHC (some c) := by
    simp only [isLowEndHC]
    rintro ⟨-, hlt⟩
    omega
  refine ⟨?_, rfl, ?_, ?_, ?_⟩
  · simp [resizeEvent, createParticles]
  · simp only [getParticleCount]
    rw [if_pos (Or.inl (by norm_num))]
  · simp only [getParticleCount]
    rw [if_neg ?_, if_pos (by norm_num : (900:ℚ) < 1024)]
    rintro (h | h)
    · norm_num at h
    · exact hnotLow h
  · simp only [getParticleCount]
    rw [if_neg ?_, if_neg (by norm_num : ¬ (1400:ℚ) < 1024)]
    rintro (h | h)
    · norm_num at h
    · exact hnotLow h

/-- A concrete simulator state used by witnesses. -/
def sInit : SysState :=
  { width := 800, height := 600, particleCount := 1,
    particles := [pLeftEdge], mouse := none, pauseAnimation := false }

/-- Witness for `c7_resize_tier_counts` at a concrete input. -/
theorem c7_resize_tier_counts_witness :
    (resizeEvent (some 8) (fun _ => 0) 500 400 sInit).particles.length =
      getParticleCount 500 (some 8) ∧
    (resizeEvent (some 8) (fun _ => 0) 500 400 sInit).particles =
      (resizeEvent (some 8) (fun _ => 0) 500 400 sInit).particles ∧
    getParticleCount 500 (some 8) = 30 ∧
    getParticleCount 900 (some 8) = 50 ∧
    getParticleCount 1400 (some 8) = 80 :=
  c7_resize_tier_counts (some 8) (fun _ => 0) 500 400 sInit sInit 8 (by norm_num)

/-- C8 (code bug): the `visibilitychange` handler sets
`pauseAnimation := true` when the tab goes hidden, but `animate()` never
reads the flag — in the hidden state the loop still updates and redraws
every frame.  Concretely: a paused state (`pauseAnimation = true`) still
has its particle collection changed by one frame. -/
theorem c8_paused_still_updates :
    (visibilityChange true sInit).pauseAnimation = true ∧
    (animateFrame (fun _ => 0) (visibilityChange true sInit)).particles ≠
      (visibilityChange true sInit).particles := by
  refine ⟨rfl, ?_⟩
  norm_num [animateFrame, visibilityChange, sInit, stepParticle, pLeftEdge]

/-! Deterministic replay (claim C9). -/

theorem list_map_congr {α β : Type} (l : List α) (f g : α → β)
    (h : ∀ a ∈ l, f a = g a) : l.map f = l.map g := by
  induction l with
  | nil => rfl
  | cons a l ih =>
      simp only [List.map_cons, List.cons.injEq]
      exact ⟨h a (by simp), ih fun b hb => h b (by simp [hb])⟩

theorem mkParticle_congr (rng₁ rng₂ : ℕ → ℚ) (W H : ℚ) (i : ℕ)
    (h : ∀ j, 8*i ≤ j → j ≤ 8*i+7 → rng₁ j = rng₂ j) :
    mkParticle rng₁ W H i = mkParticle rng₂ W H i := by
  unfold mkParticle
  rw [h (8*i) (by omega) (by omega), h (8*i+1) (by omega) (by omega),
    h (8*i+2) (by omega) (by omega), h (8*i+3) (by omega) (by omega),
    h (8*i+4) (by omega) (by omega), h (8*i+5) (by omega) (by omega),
    h (8*i+6) (by omega) (by omega), h (8*i+7) (by omega) (by omega)]

/-- The initial collection built by `init()`/`createParticles()`. -/
def initParticles (hc : Option ℕ) (rng : ℕ → ℚ) (W H : ℚ) : List Particle :=
  createParticles rng (getParticleCount W hc) W H

/-- Runs `n` frames of `updateParticles` over the whole collection, with the
mouse trajectory `traj`. -/
def runSteps (W H : ℚ) (traj : ℕ → Option (ℚ × ℚ)) (sq : ℚ → ℚ) :
    ℕ → List Particle → List Particle
  | 0, ps => ps
  | n + 1, ps => (runSteps W H traj sq n ps).map (stepParticle W H (traj n) sq)

/-- Initialization followed by `n` update steps. -/
def runSystem (hc : Option ℕ) (rng : ℕ → ℚ) (W H : ℚ)
    (traj : ℕ → Option (ℚ × ℚ)) (sq : ℚ → ℚ) (n : ℕ) : List Particle :=
  runSteps W H traj sq n (initParticles hc rng W H)

/-- C9: initialization followed by `n` update steps depends only on the
consumed pseudo-random prefix and the inputs: two random streams that agree
on the `8 × particleCount` values used by `createParticles` produce
identical particle collections after any number of steps under the same
viewport, mouse trajectory and square-root function. -/
theorem c9_deterministic_replay (hc : Option ℕ) (W H : ℚ)
    (traj : ℕ → Option (ℚ × ℚ)) (sq : ℚ → ℚ) (n : ℕ) (rng₁ rng₂ : ℕ → ℚ)
    (h : ∀ i, i < 8 * getParticleCount W hc → rng₁ i = rng₂ i) :
    runSystem hc rng₁ W H traj sq n = runSystem hc rng₂ W H traj sq n := by
  have hinit : initParticles hc rng₁ W H = initParticles hc rng₂ W H := by
    unfold initParticles createParticles
    refine list_map_congr _ _ _ ?_
    intro i hi
    rw [List.mem_range] at hi
    exact mkParticle_congr rng₁ rng₂ W H i
      (fun j h1 h2 => h j (by omega))
  unfold runSystem
  rw [hinit]

/-- Witness for `c9_deterministic_replay` at a concrete input. -/
theorem c9_deterministic_replay_witness :
    runSystem none (fun _ => 0) 10 10 (fun _ => none) (fun _ => 0) 1 =
      runSystem none (fun _ => 0) 10 10 (fun _ => none) (fun _ => 0) 1 :=
  c9_deterministic_replay none 10 10 (fun _ => none) (fun _ => 0) 1
    (fun _ => 0) (fun _ => 0) (fun _ _ => rfl)

/-! Explosion bursts (claim C6), from `ParticleSystem.createExplosion`. -/

/-- Explosion particle as pushed by `createExplosion`. -/
structure EParticle where
  x : ℚ
  y : ℚ
  vx : ℚ
  vy : ℚ
  size : ℚ
  color : String
  opacity : ℚ
  life : ℚ
  decay : ℚ
deriving DecidableEq, Repr

/-- Per-particle body of `animateExplosion`: advance position, apply 0.98
friction, `life -= decay`, `opacity = life`. -/
def updateExplosionParticle (p : EParticle) : EParticle :=
  { p with x := p.x + p.vx, y := p.y + p.vy,
           vx := p.vx * 0.98, vy := p.vy * 0.98,
           life := p.life - p.decay, opacity := p.life - p.decay }

/-- One pass of `animateExplosion` over the list.  The source iterates with
`forEach` and calls `splice(index, 1)` inside the callback; per JavaScript
semantics, removing the element at the current index shifts the next element
into the visited slot, so that next element is NOT updated during this pass
(and the cached initial length makes the iteration simply run off the
shortened end).  The second equation (`life` hits 0 on a singleton) and the
third (head dies: the following element `r` is kept unvisited) encode
exactly that. -/
def explosionFrame : List EParticle → List EParticle
  | [] => []
  | [p] =>
      let q := updateExplosionParticle p
      if q.life ≤ 0 then [] else [q]
  | p :: r :: rest =>
      let q := updateExplosionParticle p
      if q.life ≤ 0 then r :: explosionFrame rest
      else q :: explosionFrame (r :: rest)

/-- Iterated explosion animation frames. -/
def explosionFrames : ℕ → List EParticle → List EParticle
  | 0, ps => ps
  | n + 1, ps => explosionFrame (explosionFrames n ps)

/-- A concrete two-particle burst: decay rates `1/40 = 0.025` and
`1/50 = 0.02`, both inside the generated range `[0.01, 0.03)`, both with
initial life 1 (velocities zeroed; they do not affect `life`). -/
def exBurst : List EParticle :=
  [ { x := 0, y := 0, vx := 0, vy := 0, size := 2, color := "#00f5ff",
      opacity := 1, life := 1, decay := 1/40 },
    { x := 0, y := 0, vx := 0, vy := 0, size := 2, color := "#00f5ff",
      opacity := 1, life := 1, decay := 1/50 } ]

/-- C6 (code bug): the second burst particle has decay `d = 1/50`, so the
claim says its life reaches `≤ 0` and it is removed after exactly
`⌈1/d⌉ = 50` frames.  In the code, the removal of the first particle at
frame 40 (`splice` inside `forEach`) skips the update of the second particle
that frame,
so after 50 frames the second particle is still in the collection with
life `1/50 > 0`. -/
theorem c6_explosion_skip_late :
    ⌈(1 : ℚ) / (1/50)⌉ = 50 ∧
    explosionFrames 50 exBurst =
      [ { x := 0, y := 0, vx := 0, vy := 0, size := 2, color := "#00f5ff",
          opacity := 1/50, life := 1/50, decay := 1/50 } ] ∧
    (0 : ℚ) < 1/50 := by
  refine ⟨?_, ?_, by norm_num⟩
  · have h : (1 : ℚ) / (1/50) = ((50 : ℤ) : ℚ) := by norm_num
    rw [h, Int.ceil_intCast]
  · norm_num [explosionFrames, explosionFrame, updateExplosionParticle, exBurst]

end Bumblebee
